import Mathlib

/-!
# Verification of the badho-search hybrid retrieval engine

A shallow embedding of the core of the `badho-search` repository
(`src/badho_search/hybrid_search.py`, `embeddings.py`, `index_build.py`,
`app.py`) together with proofs about the claims of its specification.

Modelling conventions:
* Python floats are modelled as rationals (`ℚ`); the claims under study are
  about which additive adjustments are applied and how candidates are ordered,
  not about IEEE-754 rounding.
* Python strings are modelled as Lean `String`; `str.strip` / `str.lower` /
  `str.upper` are modelled character-wise (`py_strip`, `py_lower`, `py_upper`),
  which agrees with CPython on the ASCII data the engine handles.
* The external Ollama embedding HTTP service is modelled as an abstract
  backend mapping a text to a response; the external phonetic library
  (jellyfish double metaphone) is an abstract code-pair function.  Levenshtein
  distance (`jellyfish.levenshtein_distance`) is implemented concretely.
* Thread-pool nondeterminism in `embed_texts_parallel` is modelled by an
  explicit completion order: a list of submission indices in the order in
  which the futures complete.
* Python raising an exception is modelled with `Except` / `Option`.
-/

set_option maxRecDepth 8000

namespace BadhoSearch

/-- Python `str.strip()`: remove leading and trailing whitespace. -/
def py_strip (s : String) : String :=
  (((s.data.dropWhile Char.isWhitespace).reverse.dropWhile Char.isWhitespace).reverse).asString

/-- Python `str.lower()` (ASCII-faithful). -/
def py_lower (s : String) : String := (s.data.map Char.toLower).asString

/-- Python `str.upper()` (ASCII-faithful). -/
def py_upper (s : String) : String := (s.data.map Char.toUpper).asString

/-- Classic Levenshtein edit distance on character lists, as computed by
`jellyfish.levenshtein_distance`. -/
def lev_chars : List Char → List Char → Nat
  | [], ys => ys.length
  | xs, [] => xs.length
  | x :: xs, y :: ys =>
    if x = y then lev_chars xs ys
    else 1 + min (lev_chars xs ys) (min (lev_chars (x :: xs) ys) (lev_chars xs (y :: ys)))
  termination_by a b => a.length + b.length

/-- `jellyfish.levenshtein_distance` on strings. -/
def levenshtein_distance (a b : String) : Nat := lev_chars a.data b.data

/-! ## Configuration constants (`src/badho_search/config.py`) -/

def DEFAULT_K : Nat := 5
def DEFAULT_CANDIDATE_POOL : Nat := 150
/-- `DEFAULT_PHONETIC_BOOST = 0.2` -/
def DEFAULT_PHONETIC_BOOST : ℚ := 2/10
/-- `PRODUCT_PHONETIC_BOOST = 0.25` -/
def PRODUCT_PHONETIC_BOOST : ℚ := 25/100
/-- `FUZZY_JARO_WEIGHT = 50.0` -/
def FUZZY_JARO_WEIGHT : ℚ := 50
/-- `PHONETIC_CODE_MAX_EDITS = 1` -/
def PHONETIC_CODE_MAX_EDITS : Nat := 1
/-- `PHONETIC_APPROX_BOOST = 0.12` -/
def PHONETIC_APPROX_BOOST : ℚ := 12/100

/-! ## The product lookup record (`index_build._build_lookup` output shape) -/

structure ProductRecord where
  label : String
  brandLabel : String
  category : String
  brand_phonetic : String
  product_phonetic : String
  brand_phonetic_alt : String
  product_phonetic_alt : String
  deriving DecidableEq, Repr

/-! ## Hybrid search rerank (`hybrid_search.HybridSearchEngine.hybrid_search`) -/

/-- `{str(metadata.get("brand_phonetic","")).upper(), str(metadata.get("brand_phonetic_alt","")).upper()} - {""}`:
the record's brand phonetic codes, uppercased, empty string removed. -/
def brand_codes (r : ProductRecord) : List String :=
  ([py_upper r.brand_phonetic, py_upper r.brand_phonetic_alt].eraseDups).filter (· ≠ "")

/-- Product phonetic codes of a record, uppercased, empty string removed. -/
def product_codes (r : ProductRecord) : List String :=
  ([py_upper r.product_phonetic, py_upper r.product_phonetic_alt].eraseDups).filter (· ≠ "")

/-- `approx_code_match(record_code, qcodes)` from `hybrid_search.py`: an empty
code never matches; otherwise the uppercased code matches exactly, or matches
some query code within Levenshtein distance `PHONETIC_CODE_MAX_EDITS`. -/
def approx_code_match (record_code : String) (qcodes : List String) : Bool :=
  if record_code = "" then false
  else
    let code_up := py_upper record_code
    qcodes.contains code_up ||
      qcodes.any (fun qc => levenshtein_distance code_up qc ≤ PHONETIC_CODE_MAX_EDITS)

/-- The per-candidate `final_score` computation of `hybrid_search` (lines
110-141): start from the L2 distance, subtract the brand phonetic boost
(exact, else approximate), the product phonetic boost (exact, else
approximate), and the weighted Jaro-Winkler similarity when positive.
`jw` abstracts `jellyfish.jaro_winkler_similarity`. -/
def final_score (jw : String → String → ℚ) (query : String) (query_codes : List String)
    (phonetic_boost : ℚ) (dist : ℚ) (r : ProductRecord) : ℚ :=
  let s0 := dist
  let s1 :=
    if (brand_codes r).any (fun c => query_codes.contains c) then s0 - phonetic_boost
    else if (brand_codes r).any (fun c => approx_code_match c query_codes) then
      s0 - PHONETIC_APPROX_BOOST
    else s0
  let s2 :=
    if (product_codes r).any (fun c => query_codes.contains c) then s1 - PRODUCT_PHONETIC_BOOST
    else if (product_codes r).any (fun c => approx_code_match c query_codes) then
      s1 - PHONETIC_APPROX_BOOST
    else s1
  let jws := jw (py_lower query) (py_lower r.label)
  if 0 < jws then s2 - FUZZY_JARO_WEIGHT * jws else s2

/-- Claim-side brand adjustment, following the specification text: the strong
boost if the record's non-empty brand codes intersect the query code set, else
the small approximate boost if some brand code tolerantly matches, else zero. -/
def spec_brand_adjust (query_codes : List String) (phonetic_boost : ℚ) (r : ProductRecord) : ℚ :=
  if (brand_codes r).any (fun c => query_codes.contains c) then phonetic_boost
  else if (brand_codes r).any (fun c => approx_code_match c query_codes) then
    PHONETIC_APPROX_BOOST
  else 0

/-- Claim-side product adjustment, following the specification text. -/
def spec_product_adjust (query_codes : List String) (r : ProductRecord) : ℚ :=
  if (product_codes r).any (fun c => query_codes.contains c) then PRODUCT_PHONETIC_BOOST
  else if (product_codes r).any (fun c => approx_code_match c query_codes) then
    PHONETIC_APPROX_BOOST
  else 0

/-- Claim-side closed scoring formula: L2 distance minus the brand adjustment,
minus the product adjustment, minus `FUZZY_JARO_WEIGHT` times the Jaro-Winkler
similarity of the lowercased query and the record label. -/
def spec_final_score (jw : String → String → ℚ) (query : String) (query_codes : List String)
    (phonetic_boost : ℚ) (dist : ℚ) (r : ProductRecord) : ℚ :=
  dist - spec_brand_adjust query_codes phonetic_boost r - spec_product_adjust query_codes r
    - FUZZY_JARO_WEIGHT * jw (py_lower query) (py_lower r.label)

/-! ## Stable sorting (`ranked_results.sort(key=lambda x: x[0])`)

Python's `list.sort` is a stable sort.  We model it by stable insertion sort:
`strictly_before y x` decides whether an element `y` already in the sorted
output must stay in front of a newly inserted `x` that originally preceded it. -/

def insert_stable (c : α → α → Bool) (x : α) : List α → List α
  | [] => [x]
  | y :: ys => if c y x then y :: insert_stable c x ys else x :: y :: ys

def sort_stable (c : α → α → Bool) : List α → List α
  | [] => []
  | a :: l => insert_stable c a (sort_stable c l)

/-- A scored candidate: `(final_score, original candidate position, record)`.
The position is the index in the ANN candidate order and only serves to state
stability; it is dropped from the returned hits. -/
abbrev ScoredItem := ℚ × Nat × ProductRecord

/-- Comparison used by the rerank sort: ascending by score only
(`key=lambda x: x[0]`). -/
def score_lt (a b : ScoredItem) : Bool := a.1 < b.1

/-- A returned hit: a fresh copy of the looked-up record (`item = dict(meta)`)
with the key `"score"` attached. -/
structure Hit where
  record : ProductRecord
  score : ℚ
  deriving DecidableEq, Repr

/-- The candidate gathering loop of `hybrid_search` (lines 104-108): zip the
ANN distances with indices, skip negative indices, and look each index up in
`self.product_lookup`.  An out-of-range index raises (`none`). -/
def lookup_cands (lookup : List ProductRecord) :
    List (ℚ × Int) → Option (List (ℚ × ProductRecord))
  | [] => some []
  | (d, idx) :: rest =>
    if idx < 0 then lookup_cands lookup rest
    else
      match lookup[idx.toNat]? with
      | none => none
      | some r => (lookup_cands lookup rest).map (fun t => (d, r) :: t)

/-- The scored candidate list `ranked_results` before sorting, tagged with the
original candidate position. -/
def ranked_tagged (jw : String → String → ℚ) (query : String) (query_codes : List String)
    (phonetic_boost : ℚ) (lookup : List ProductRecord) (cands : List (ℚ × Int)) :
    Option (List ScoredItem) :=
  (lookup_cands lookup cands).map (fun l =>
    l.enum.map (fun p => (final_score jw query query_codes phonetic_boost p.2.1 p.2.2, p.1, p.2.2)))

/-- The rerank-and-truncate tail of `hybrid_search` (lines 104-150): score all
candidates, sort ascending by score with a stable sort, take the first `k`,
and attach the score to a copy of each record. -/
def hybrid_rerank (jw : String → String → ℚ) (query : String) (query_codes : List String)
    (phonetic_boost : ℚ) (lookup : List ProductRecord) (cands : List (ℚ × Int)) (k : Nat) :
    Option (List Hit) :=
  (ranked_tagged jw query query_codes phonetic_boost lookup cands).map (fun rr =>
    ((sort_stable score_lt rr).take k).map (fun t => Hit.mk t.2.2 t.1))

/-- The query-dependent arguments of one `hybrid_search` invocation (the query
embedding and ANN stage are summarised by the candidate list they produce). -/
structure QueryArgs where
  query : String
  query_codes : List String
  phonetic_boost : ℚ
  cands : List (ℚ × Int)
  k : Nat

/-- `hybrid_search` with the in-memory `self.product_lookup` threaded as
explicit state: the method only reads the lookup (`metadata =
self.product_lookup[idx]`) and attaches the score to a fresh `dict(meta)`
copy, so the state it returns is the state it was given. -/
def hybrid_search_stateful (jw : String → String → ℚ) (q : QueryArgs)
    (lookup : List ProductRecord) : Option (List Hit) × List ProductRecord :=
  (hybrid_rerank jw q.query q.query_codes q.phonetic_boost lookup q.cands q.k, lookup)

/-! ## Embedding client (`src/badho_search/embeddings.py`)

The Ollama HTTP endpoint is abstracted as two response maps (one per payload
shape); a `Except.error` models a network failure or non-200 status. -/

/-- The JSON body of an embeddings response: possibly an `embedding` field,
possibly an `embeddings` field. -/
structure EmbedResp where
  embedding : Option (List ℚ)
  embeddings : Option (List (List ℚ))
  deriving DecidableEq, Repr

/-- The embedding service: the response to `{model, input, ...}` and to
`{model, prompt, ...}` payloads for a given text. -/
structure Backend where
  input_call : String → Except Unit EmbedResp
  prompt_call : String → Except Unit EmbedResp

inductive EmbedErr where
  | valueError
  | ollamaError
  | keyError
  deriving DecidableEq, Repr

/-- Python truthiness of the `embedding` field: `None` and `[]` are falsy. -/
def falsy_vec (v : Option (List ℚ)) : Bool :=
  match v with
  | none => true
  | some [] => true
  | some (_ :: _) => false

/-- `embed_text` (embeddings.py lines 37-67): reject the empty text, try the
`input` payload, fall back to the `prompt` payload when the `embedding` field
is falsy, accept a singleton `embeddings` list when `embedding` is absent, and
fail on an empty result.  Vectors are modelled one-dimensional, so the
`arr.ndim != 1` check never fires. -/
def embed_text (B : Backend) (text : String) : Except EmbedErr (List ℚ) :=
  if text = "" then .error .valueError
  else
    match B.input_call text with
    | .error _ => .error .ollamaError
    | .ok data1 =>
      match
        (if falsy_vec data1.embedding then
          match B.prompt_call text with
          | .error _ => .error ()
          | .ok data2 => .ok (data2, data2.embedding)
        else .ok (data1, data1.embedding) : Except Unit (EmbedResp × Option (List ℚ))) with
      | .error _ => .error .ollamaError
      | .ok (data, vec0) =>
        let vec :=
          match vec0 with
          | none =>
            match data.embeddings with
            | some [w] => some w
            | _ => none
          | some x => some x
        match vec with
        | none => .error .ollamaError
        | some w => if w = [] then .error .ollamaError else .ok w

/-- The loop body state of `embed_texts`: accumulate vectors in order, fixing
the dimension at the first vector and failing on any later mismatch. -/
def embed_texts_go (B : Backend) (first_dim : Option Nat) :
    List String → Except EmbedErr (List (List ℚ))
  | [] => .ok []
  | t :: ts =>
    match embed_text B t with
    | .error e => .error e
    | .ok v =>
      match first_dim with
      | none =>
        match embed_texts_go B (some v.length) ts with
        | .error e => .error e
        | .ok vs => .ok (v :: vs)
      | some d =>
        if v.length ≠ d then .error .ollamaError
        else
          match embed_texts_go B (some d) ts with
          | .error e => .error e
          | .ok vs => .ok (v :: vs)

/-- `embed_texts` (embeddings.py lines 70-89): sequentially embed each text,
enforcing one dimension across the batch; an empty input yields an empty
matrix. -/
def embed_texts (B : Backend) (texts : List String) : Except EmbedErr (List (List ℚ)) :=
  embed_texts_go B none texts

/-- The `as_completed` loop of `embed_texts_parallel`: process completions in
the given order, each yielding `(idx, embed_text(texts[idx]))`; fix the
dimension at the first completion and fail on any later mismatch; store each
vector in a dict keyed by submission index. -/
def process_completions (B : Backend) (texts : List String) (first_dim : Option Nat)
    (results : Nat → Option (List ℚ)) :
    List Nat → Except EmbedErr (Nat → Option (List ℚ))
  | [] => .ok results
  | i :: rest =>
    match embed_text B (texts.getD i "") with
    | .error e => .error e
    | .ok v =>
      let results' := fun j => if j = i then some v else results j
      match first_dim with
      | none => process_completions B texts (some v.length) results' rest
      | some d =>
        if v.length ≠ d then .error .ollamaError
        else process_completions B texts (some d) results' rest

/-- The final `[results[i] for i in range(len(texts))]` of
`embed_texts_parallel`; a missing key raises (`none`). -/
def assemble_rows (results : Nat → Option (List ℚ)) : List Nat → Option (List (List ℚ))
  | [] => some []
  | i :: is =>
    match results i, assemble_rows results is with
    | some v, some vs => some (v :: vs)
    | _, _ => none

/-- `embed_texts_parallel` (embeddings.py lines 92-127): submit one task per
text, process the completions in the (nondeterministic) order `order`, then
assemble the matrix in submission order.  `max_workers` bounds the pool but
does not influence the result.  A `KeyError` on assembly is an error. -/
def embed_texts_parallel (B : Backend) (texts : List String) (max_workers : Nat)
    (order : List Nat) : Except EmbedErr (List (List ℚ)) :=
  if texts = [] then .ok []
  else
    match process_completions B texts none (fun _ => none) order with
    | .error e => .error e
    | .ok results =>
      match assemble_rows results (List.range texts.length) with
      | some m => .ok m
      | none => .error .keyError

/-! ## Index build (`src/badho_search/index_build.py`) -/

/-- One CSV row (the three required columns). -/
structure CatalogueRow where
  product_name : String
  brand_name : String
  category_name : String
  deriving DecidableEq, Repr

/-- One normalized dataframe row after `_prepare_dataframe`: lowercased and
trimmed columns, the composed `search_text`, and the four phonetic codes.
`phon` abstracts `jellyfish.double_metaphone` (primary, alternate). -/
structure PreparedRow where
  product_name : String
  brand_name : String
  category_name : String
  search_text : String
  brand_phonetic : String
  brand_phonetic_alt : String
  product_phonetic : String
  product_phonetic_alt : String
  deriving DecidableEq, Repr

/-- `safe_lower` from `_prepare_dataframe`: `str(x).strip().lower()`. -/
def safe_lower (x : String) : String := py_lower (py_strip x)

/-- `dmeta_or_meta_both`: uppercase the primary and alternate codes, with `""`
standing for a missing alternate. -/
def dmeta_both (phon : String → Option String × Option String) (text : String) :
    String × String :=
  ((py_upper ((phon text).1.getD "")), (py_upper ((phon text).2.getD "")))

/-- Normalization of one row inside `_prepare_dataframe` (lines 41-74). -/
def prepare_row (phon : String → Option String × Option String) (row : CatalogueRow) :
    PreparedRow :=
  let p := safe_lower row.product_name
  let b := safe_lower row.brand_name
  let c := safe_lower row.category_name
  let bc := dmeta_both phon b
  let pc := dmeta_both phon p
  { product_name := p
    brand_name := b
    category_name := c
    search_text := py_strip (b ++ " " ++ p ++ " " ++ c)
    brand_phonetic := bc.1
    brand_phonetic_alt := bc.2
    product_phonetic := pc.1
    product_phonetic_alt := pc.2 }

/-- `_prepare_dataframe`: optional `head(max_rows)` then per-row
normalization. -/
def prepare_dataframe (phon : String → Option String × Option String)
    (rows : List CatalogueRow) (max_rows : Option Nat) : List PreparedRow :=
  let limited :=
    match max_rows with
    | some n => if 0 < n then rows.take n else rows
    | none => rows
  limited.map (prepare_row phon)

/-- `_build_lookup` (index_build.py lines 79-102): one lookup record per
dataframe row, in order. -/
def build_lookup_record (row : PreparedRow) : ProductRecord :=
  { label := py_strip row.product_name
    brandLabel := py_strip row.brand_name
    category := py_strip row.category_name
    brand_phonetic := py_strip row.brand_phonetic
    product_phonetic := py_strip row.product_phonetic
    brand_phonetic_alt := py_strip row.brand_phonetic_alt
    product_phonetic_alt := py_strip row.product_phonetic_alt }

def build_lookup (rows : List PreparedRow) : List ProductRecord :=
  rows.map build_lookup_record

/-- The persisted `meta.json` content. -/
structure BuildMeta where
  num_items : Nat
  embedding_dim : Nat
  model : String
  index_type : String
  deriving DecidableEq, Repr

/-- The artifact set written by one `build_index` run: the flat L2 vector
index (its rows, in insertion order), the lookup, the phonetic vocabulary and
the meta file. -/
structure Artifacts where
  index : List (List ℚ)
  lookup : List ProductRecord
  vocab : List String
  meta : BuildMeta
  deriving DecidableEq, Repr

inductive BuildErr where
  | embed (e : EmbedErr)
  | shape
  deriving DecidableEq, Repr

/-- String comparison used to model Python `sorted` on the phonetic
vocabulary. -/
def str_lt (a b : String) : Bool := decide (a < b)

/-- The phonetic vocabulary written by `build_index`: the sorted set of the
four code fields over all lookup records, empty strings dropped on write. -/
def build_vocab (lookup : List ProductRecord) : List String :=
  (sort_stable str_lt
      ((lookup.map (·.brand_phonetic) ++ lookup.map (·.product_phonetic)
          ++ lookup.map (·.brand_phonetic_alt) ++ lookup.map (·.product_phonetic_alt)).eraseDups)).filter
    (· ≠ "")

/-- `build_index` (index_build.py lines 105-163): normalize the rows, embed
the search texts through the bounded pool (completion order `order`), check
the matrix shape, build the flat L2 index from the rows in order, and produce
the lookup, vocabulary and meta artifacts. -/
def build_index (B : Backend) (phon : String → Option String × Option String)
    (rows : List CatalogueRow) (max_rows : Option Nat) (workers : Nat) (order : List Nat) :
    Except BuildErr Artifacts :=
  let df := prepare_dataframe phon rows max_rows
  let texts := df.map (·.search_text)
  match embed_texts_parallel B texts workers order with
  | .error e => .error (.embed e)
  | .ok embeddings =>
    if embeddings.length ≠ texts.length then .error .shape
    else
      let num_items := embeddings.length
      let embedding_dim := (embeddings.headD []).length
      let lookup := build_lookup df
      .ok
        { index := embeddings
          lookup := lookup
          vocab := build_vocab lookup
          meta :=
            { num_items := num_items
              embedding_dim := embedding_dim
              model := "nomic-embed-text"
              index_type := "IndexFlatL2" } }

/-! ## Facet composer and search route (`app.py`) -/

/-- One brand SKU row as returned by
`ProductDatabase.get_brand_sku_by_product_names`. -/
structure SKU where
  brand_sku_id : Nat
  brand_sku_label : String
  brand_name : String
  brand_id : Nat
  deriving DecidableEq, Repr

/-- One raw facet item as returned by
`ProductDatabase.get_facets_by_brand_sku_ids`: a facet value, a count (used by
the `price_range` key) and optional price bounds. -/
structure FacetRow where
  facet_value : String
  count : Nat
  min_price : Option ℚ
  max_price : Option ℚ
  deriving DecidableEq, Repr

/-- One processed facet option as produced by `_process_facets_for_ui`. -/
structure FacetOption where
  value : String
  count : Nat
  display_name : String
  min_price : Option ℚ
  max_price : Option ℚ
  deriving DecidableEq, Repr

/-- The relational facet/SKU store, abstracted over the three queries
`app.py` issues. -/
structure ProductDB where
  get_brand_sku_by_product_names : List String → List (String × List SKU)
  get_brand_skus_matching_facets : List (String × List String) → List Nat → List Nat
  get_facets_by_brand_sku_ids : List Nat → Bool → List (String × List FacetRow)

/-- A hit at the `app.py` level: the fields the composer reads and the four
optional brand fields `_enhance_results_with_brand_info` may attach. -/
structure AppHit where
  label : String
  score : ℚ
  brand_sku_id : Option Nat
  brand_sku_label : Option String
  brand_name : Option String
  brand_id : Option Nat
  deriving DecidableEq, Repr

/-- Count the occurrences of each facet value, keys in first-occurrence order
(the `value_counts` dict of `_process_facets_for_ui`). -/
def value_counts (items : List FacetRow) : List (String × Nat) :=
  items.foldl
    (fun acc it =>
      match acc.lookup it.facet_value with
      | some n => acc.map (fun p => if p.1 = it.facet_value then (p.1, n + 1) else p)
      | none => acc ++ [(it.facet_value, 1)])
    []

/-- Descending-count comparison for regular facet options
(`sort(key=lambda x: x['count'], reverse=True)`, stable). -/
def count_gt (a b : FacetOption) : Bool := b.count < a.count

/-- Ascending `min_price` comparison for price-range options
(`sort(key=lambda x: x.get('min_price', 0))`, stable). -/
def min_price_lt (a b : FacetOption) : Bool := a.min_price.getD 0 < b.min_price.getD 0

/-- Processing of one facet key in `_process_facets_for_ui`: its display
options and the total product count used for key ordering. -/
def process_facet_key (standard_key : String) (items : List FacetRow) :
    List FacetOption × Nat :=
  if standard_key = "price_range" then
    let options := items.map (fun it =>
      { value := it.facet_value
        count := it.count
        display_name := it.facet_value ++ " (" ++ toString it.count ++ ")"
        min_price := it.min_price
        max_price := it.max_price })
    (sort_stable min_price_lt options, (items.map (·.count)).sum)
  else
    let vc := value_counts items
    let options := vc.map (fun p =>
      { value := p.1
        count := p.2
        display_name := p.1
        min_price := none
        max_price := none })
    (sort_stable count_gt options, (vc.map (·.2)).sum)

/-- Descending-total comparison for the non-`price_range` facet keys
(`other_facets.sort(key=lambda x: x[2], reverse=True)`, stable). -/
def total_gt (a b : (String × List FacetOption) × Nat) : Bool := b.2 < a.2

/-- `_process_facets_for_ui` (app.py lines 180-252): process each key, then
order the output map with `price_range` first and the remaining keys by
descending total count. -/
def process_facets_for_ui (facets : List (String × List FacetRow)) :
    List (String × List FacetOption) :=
  let processed := facets.map (fun p =>
    let r := process_facet_key p.1 p.2
    ((p.1, r.1), r.2))
  let price_first := (processed.filter (fun q => q.1.1 = "price_range")).map (·.1)
  let others := processed.filter (fun q => q.1.1 ≠ "price_range")
  price_first ++ (sort_stable total_gt others).map (·.1)

/-- The value returned by `get_facets_async`. -/
structure FacetsResult where
  facets : List (String × List FacetOption)
  facets_complete : Bool
  brand_sku_mapping : Option (List (String × List SKU))
  deriving DecidableEq, Repr

/-- `SearchFacetSystem.get_facets_async` (app.py lines 131-167): resolve the
SKUs of the given product names, flatten their ids, fetch the facet
aggregates, and process them for the UI.  Note that the `facet_filters`
argument is accepted but never read. -/
def get_facets_async (db : ProductDB) (product_names : List String)
    (facet_filters : List (String × List String)) (only_active_facets : Bool) : FacetsResult :=
  if product_names = [] then ⟨[], true, none⟩
  else
    let mapping := db.get_brand_sku_by_product_names product_names
    if mapping = [] then ⟨[], true, none⟩
    else
      let brand_sku_ids := ((mapping.map (·.2)).flatten).map (·.brand_sku_id)
      let facets := db.get_facets_by_brand_sku_ids brand_sku_ids only_active_facets
      ⟨process_facets_for_ui facets, true, some mapping⟩

/-- `_enhance_results_with_brand_info` (app.py lines 254-275): copy each hit
and, when its label resolves to a non-empty SKU list, set the four brand
fields from the FIRST SKU of that list (`brand_skus[0]`). -/
def enhance_results (results : List AppHit) (mapping : List (String × List SKU)) :
    List AppHit :=
  results.map (fun r =>
    match mapping.lookup r.label with
    | some (sku :: _) =>
      { r with
        brand_sku_id := some sku.brand_sku_id
        brand_sku_label := some sku.brand_sku_label
        brand_name := some sku.brand_name
        brand_id := some sku.brand_id }
    | _ => r)

/-- The facet-filtering step of `SearchFacetSystem.search_with_facets`
(app.py lines 67-104): with a non-empty filter set and non-empty labels,
resolve SKUs, keep the hits one of whose SKUs survives
`get_brand_skus_matching_facets`, and enhance them with brand info; in every
degenerate branch return the hits unchanged. -/
def apply_facet_filtering (db : ProductDB) (results : List AppHit)
    (facet_filters : List (String × List String)) : List AppHit :=
  let product_names := (results.map (·.label)).filter (· ≠ "")
  if facet_filters ≠ [] ∧ product_names ≠ [] then
    let mapping := db.get_brand_sku_by_product_names product_names
    if mapping ≠ [] then
      let all_brand_sku_ids := ((mapping.map (·.2)).flatten).map (·.brand_sku_id)
      if all_brand_sku_ids ≠ [] then
        let keep := db.get_brand_skus_matching_facets facet_filters all_brand_sku_ids
        let filtered := results.filter (fun r =>
          match mapping.lookup r.label with
          | some skus => skus.any (fun s => keep.contains s.brand_sku_id)
          | none => false)
        enhance_results filtered mapping
      else results
    else results
  else results

/-- Claim-side resolution for C7: the first SKU of the label that satisfies
the active facet filters (i.e. whose id survived
`get_brand_skus_matching_facets`). -/
def first_matching_sku (mapping : List (String × List SKU)) (keep : List Nat)
    (label : String) : Option SKU :=
  (mapping.lookup label).bind (fun skus => skus.find? (fun s => keep.contains s.brand_sku_id))

/-! ## The `/search` route (app.py lines 285-316) -/

/-- The JSON body the route returns. -/
structure SearchResponse where
  results : List AppHit
  facets : List (String × List FacetOption)
  timing : Option Unit
  total_results : Nat
  error : Option String
  search_complete : Bool
  facets_loading : Bool
  deriving DecidableEq, Repr

/-- The fixed response for an empty query (app.py lines 301-310). -/
def empty_query_response : SearchResponse :=
  { results := []
    facets := []
    timing := none
    total_results := 0
    error := some "No search query provided"
    search_complete := false
    facets_loading := false }

/-- Python `int(s)` on a string: optional surrounding whitespace, optional
sign, at least one digit; anything else raises `ValueError`. -/
def py_int (s : String) : Option Int :=
  let t := (py_strip s).data
  let core : List Char × Bool :=
    match t with
    | '-' :: rest => (rest, true)
    | '+' :: rest => (rest, false)
    | _ => (t, false)
  if core.1 ≠ [] ∧ core.1.all Char.isDigit then
    let n := core.1.foldl (fun acc c => acc * 10 + (c.toNat - '0'.toNat)) 0
    some (if core.2 then -(n : Int) else (n : Int))
  else none

/-- `k = int(request.args.get('k', 50))`: the default is the integer `50`,
a present parameter is parsed with `int` and may raise. -/
def parse_k (kArg : Option String) : Option Int :=
  match kArg with
  | none => some 50
  | some s => py_int s

/-- The `facet_` query-parameter parsing shared by the routes (app.py lines
293-299). -/
def parse_facet_args (args : List (String × List String)) :
    List (String × List String) :=
  args.filterMap (fun p =>
    if "facet_".data.isPrefixOf p.1.data ∧ p.2 ≠ [] then
      some ((p.1.data.drop 6).asString, p.2.filter (fun v => py_strip v ≠ ""))
    else none)

/-- The `/search` route (app.py lines 285-316), parameterised by the search
system (`search_with_facets` curried over query, k, filters and the
active-facets flag).  `Except.error` models an uncaught Python exception
(Flask degrades it to a 500 response with no JSON body). -/
def search_route (engine : String → Int → List (String × List String) → Bool → SearchResponse)
    (qArg : String) (kArg : Option String) (activeArg : Option String)
    (facetArgs : List (String × List String)) : Except Unit SearchResponse :=
  let query := py_strip qArg
  match parse_k kArg with
  | none => .error ()
  | some k =>
    let only_active := py_lower (activeArg.getD "false") = "true"
    let facet_filters := parse_facet_args facetArgs
    if query = "" then .ok empty_query_response
    else .ok (engine query k facet_filters only_active)

/-- Sorted-and-stable order on scored candidates: strictly smaller score, or
equal score and strictly smaller original candidate position. -/
def score_pos_lex (a b : ScoredItem) : Prop :=
  a.1 < b.1 ∨ (a.1 = b.1 ∧ a.2.1 < b.2.1)

/-! ## Concrete instances used by witnesses and counterexamples -/

/-- A degenerate Jaro-Winkler function: similarity `0` everywhere. -/
def jw_zero : String → String → ℚ := fun _ _ => 0

/-- A record whose brand code matches the query codes exactly. -/
def rec_colgate : ProductRecord :=
  ⟨"colgate total", "colgate", "toothpaste", "KLKT", "TTL", "", ""⟩

def w4_ra : ProductRecord := ⟨"a", "", "", "", "", "", ""⟩

def w4_rb : ProductRecord := ⟨"b", "", "", "", "", "", ""⟩

def w4_lookup : List ProductRecord := [w4_ra, w4_rb]

/-- Two valid ANN candidates and one empty slot (`idx = -1`). -/
def w4_cands : List (ℚ × Int) := [(2, 0), (1, 1), (3, -1)]

def w4_query : QueryArgs := ⟨"q", [], 0, w4_cands, 1⟩

/-- A backend answering with a fixed vector per text on the `input` payload. -/
def w2_vec (t : String) : List ℚ := if t = "a" then [1] else if t = "b" then [2] else [3]

def w2_backend : Backend := ⟨fun t => .ok ⟨some (w2_vec t), none⟩, fun _ => .error ()⟩

/-- A backend whose embedding dimension differs between texts: dimension 2
for `"a"` and dimension 3 for anything else. -/
def c6_backend : Backend :=
  ⟨fun t => .ok ⟨some (if t = "a" then [0, 0] else [0, 0, 0]), none⟩, fun _ => .error ()⟩

def w3_backend : Backend := ⟨fun _ => .ok ⟨some [1, 7], none⟩, fun _ => .error ()⟩

def w3_phon : String → Option String × Option String := fun _ => (none, none)

def w3_rows : List CatalogueRow := [⟨"Colgate Total", "Colgate", "Toothpaste"⟩]

def w3_df : List PreparedRow := prepare_dataframe w3_phon w3_rows none

/-- The artifacts the C3 witness run produces. -/
def w3_art : Artifacts :=
  { index := [[1, 7]]
    lookup := [⟨"colgate total", "colgate", "toothpaste", "", "", "", ""⟩]
    vocab := []
    meta := ⟨1, 2, "nomic-embed-text", "IndexFlatL2"⟩ }

/-- SKU facts for the C7 counterexample: the first SKU of the label does not
satisfy the facet filter, the second one does. -/
def c7_sku1 : SKU := ⟨1, "Sku One", "BrandA", 10⟩

def c7_sku2 : SKU := ⟨2, "Sku Two", "BrandB", 20⟩

def c7_db : ProductDB :=
  ⟨fun _ => [("soap", [c7_sku1, c7_sku2])], fun _ _ => [2], fun _ _ => []⟩

def c7_hit : AppHit := ⟨"soap", 0, none, none, none, none⟩

def c7_filters : List (String × List String) := [("brand", ["BrandB"])]

/-- A dummy search system for exercising the route. -/
def dummy_engine : String → Int → List (String × List String) → Bool → SearchResponse :=
  fun _ _ _ _ => empty_query_response

/-- A second, observably different search system. -/
def other_engine : String → Int → List (String × List String) → Bool → SearchResponse :=
  fun _ _ _ _ => ⟨[], [], none, 7, none, true, true⟩

/-! # Theorems -/

/-! ## Stable sort lemmas -/

theorem insert_stable_perm (c : α → α → Bool) (x : α) (l : List α) :
    (insert_stable c x l).Perm (x :: l) := by
  induction l with
  | nil => rfl
  | cons y ys ih =>
    simp only [insert_stable]
    split
    · exact (ih.cons y).trans (List.Perm.swap x y ys)
    · exact List.Perm.refl _

theorem sort_stable_perm (c : α → α → Bool) (l : List α) : (sort_stable c l).Perm l := by
  induction l with
  | nil => rfl
  | cons a l ih => exact (insert_stable_perm c a _).trans (ih.cons a)

theorem insert_stable_pairwise_slex (x : ScoredItem) (l : List ScoredItem)
    (hl : l.Pairwise score_pos_lex) (hx : ∀ b ∈ l, x.2.1 < b.2.1) :
    (insert_stable score_lt x l).Pairwise score_pos_lex := by
  induction l with
  | nil => simp [insert_stable]
  | cons y ys ih =>
    rcases List.pairwise_cons.mp hl with ⟨hy, hys⟩
    simp only [insert_stable]
    split
    case isTrue h =>
      refine List.pairwise_cons.mpr ⟨?_, ih hys (fun b hb => hx b (List.mem_cons_of_mem _ hb))⟩
      intro z hz
      rcases List.mem_cons.mp ((insert_stable_perm score_lt x ys).mem_iff.mp hz) with rfl | hz2
      · exact Or.inl (by simpa [score_lt] using h)
      · exact hy z hz2
    case isFalse h =>
      have hxle : x.1 ≤ y.1 := not_lt.mp (by simpa [score_lt] using h)
      refine List.pairwise_cons.mpr ⟨?_, hl⟩
      intro z hz
      have hzle : x.1 ≤ z.1 := by
        rcases List.mem_cons.mp hz with rfl | hz2
        · exact hxle
        · rcases hy z hz2 with h3 | ⟨h3, _⟩
          · exact hxle.trans h3.le
          · exact hxle.trans h3.le
      rcases lt_or_eq_of_le hzle with h4 | h4
      · exact Or.inl h4
      · exact Or.inr ⟨h4, hx z hz⟩

theorem sort_stable_pairwise_slex (l : List ScoredItem)
    (h : l.Pairwise (fun a b => a.2.1 < b.2.1)) :
    (sort_stable score_lt l).Pairwise score_pos_lex := by
  induction l with
  | nil => simp [sort_stable]
  | cons a l ih =>
    rcases List.pairwise_cons.mp h with ⟨ha, hl⟩
    exact insert_stable_pairwise_slex a _ (ih hl)
      (fun b hb => ha b ((sort_stable_perm score_lt l).mem_iff.mp hb))

/-! ## Enumeration helper lemmas -/

theorem le_fst_of_mem_enumFrom {l : List α} :
    ∀ {n : Nat} {x : Nat × α}, x ∈ List.enumFrom n l → n ≤ x.1 := by
  induction l with
  | nil => intro n x h; simp at h
  | cons a as ih =>
    intro n x h
    rw [List.enumFrom_cons] at h
    rcases List.mem_cons.mp h with rfl | h2
    · exact Nat.le_refl n
    · exact Nat.le_of_succ_le (ih h2)

theorem enumFrom_pairwise_fst_lt (l : List α) :
    ∀ n : Nat, (List.enumFrom n l).Pairwise (fun a b => a.1 < b.1) := by
  induction l with
  | nil => intro n; simp
  | cons a as ih =>
    intro n
    rw [List.enumFrom_cons]
    refine List.pairwise_cons.mpr ⟨?_, ih (n + 1)⟩
    intro z hz
    exact Nat.lt_of_succ_le (le_fst_of_mem_enumFrom hz)

theorem snd_mem_of_mem_enumFrom {l : List α} {n : Nat} {x : Nat × α}
    (h : x ∈ List.enumFrom n l) : x.2 ∈ l := by
  have h2 := List.mem_map_of_mem Prod.snd h
  rwa [List.enumFrom_map_snd] at h2

theorem getElem?_of_mem_enumFrom {l : List α} :
    ∀ {n : Nat} {x : Nat × α}, x ∈ List.enumFrom n l → l[x.1 - n]? = some x.2 := by
  induction l with
  | nil => intro n x h; simp at h
  | cons a as ih =>
    intro n x h
    rw [List.enumFrom_cons] at h
    rcases List.mem_cons.mp h with rfl | h2
    · simp
    · have hle : n + 1 ≤ x.1 := le_fst_of_mem_enumFrom h2
      have harith : x.1 - n = (x.1 - (n + 1)) + 1 := by omega
      rw [harith]
      simpa using ih h2

theorem getElem?_of_mem_enum {l : List α} {x : Nat × α} (h : x ∈ l.enum) :
    l[x.1]? = some x.2 := by
  have h2 : l[x.1 - 0]? = some x.2 := getElem?_of_mem_enumFrom h
  simpa using h2

/-! ## `lookup_cands` lemmas -/

theorem lookup_cands_mem {lookup : List ProductRecord} :
    ∀ {cands : List (ℚ × Int)} {lc : List (ℚ × ProductRecord)},
      lookup_cands lookup cands = some lc → ∀ dr ∈ lc, dr.2 ∈ lookup := by
  intro cands
  induction cands with
  | nil =>
    intro lc h dr hdr
    simp only [lookup_cands, Option.some.injEq] at h
    subst h
    simp at hdr
  | cons c rest ih =>
    intro lc h dr hdr
    rcases c with ⟨d, idx⟩
    simp only [lookup_cands] at h
    split at h
    · exact ih h dr hdr
    · cases hget : lookup[idx.toNat]? with
      | none => rw [hget] at h; simp at h
      | some r =>
        rw [hget] at h
        cases hrest : lookup_cands lookup rest with
        | none => rw [hrest] at h; simp at h
        | some t =>
          rw [hrest] at h
          simp only [Option.map_some', Option.some.injEq] at h
          subst h
          rcases List.mem_cons.mp hdr with rfl | hdr2
          · exact List.getElem?_mem hget
          · exact ih hrest dr hdr2

/-! ## Claim C1: the rerank scoring formula -/

/-- C1: for every ANN candidate, `final_score` equals the L2 distance minus
the brand adjustment (exact boost, else approximate boost, else nothing,
mutually exclusive), minus the product adjustment (likewise), minus
`FUZZY_JARO_WEIGHT` times the Jaro-Winkler similarity of the lowercased query
and the record label (the similarity being nonnegative, as Jaro-Winkler is). -/
theorem rerank_score_decomposition
    (jw : String → String → ℚ) (query : String) (query_codes : List String)
    (phonetic_boost dist : ℚ) (r : ProductRecord)
    (hjw : 0 ≤ jw (py_lower query) (py_lower r.label)) :
    final_score jw query query_codes phonetic_boost dist r
      = spec_final_score jw query query_codes phonetic_boost dist r := by
  simp only [final_score, spec_final_score, spec_brand_adjust, spec_product_adjust]
  by_cases hpos : 0 < jw (py_lower query) (py_lower r.label)
  · simp only [if_pos hpos]
    split_ifs <;> ring
  · have h0 : jw (py_lower query) (py_lower r.label) = 0 :=
      le_antisymm (not_lt.mp hpos) hjw
    simp only [if_neg hpos, h0]
    split_ifs <;> ring

/-- Witness for C1 at a concrete record whose brand code matches exactly. -/
theorem rerank_score_decomposition_witness :
    (0 : ℚ) ≤ jw_zero (py_lower "kolgate") (py_lower rec_colgate.label)
    ∧ final_score jw_zero "kolgate" ["KLKT"] DEFAULT_PHONETIC_BOOST 1 rec_colgate
        = spec_final_score jw_zero "kolgate" ["KLKT"] DEFAULT_PHONETIC_BOOST 1 rec_colgate :=
  ⟨by decide,
   rerank_score_decomposition jw_zero "kolgate" ["KLKT"] DEFAULT_PHONETIC_BOOST 1 rec_colgate
     (by decide)⟩

/-! ## Claim C4: top-k of a stable ascending sort -/

/-- C4: `hybrid_search` returns the first `k` elements of the scored candidate
list under a stable ascending sort by `final_score`: the output is exactly the
`k`-prefix of the sorted list, has length at most `k`, the sorted list is
ordered by score with ties in original ANN candidate order, and every returned
hit carries a `score` field equal to the `final_score` computed for its
candidate. -/
theorem hybrid_search_topk_stable_sorted
    (jw : String → String → ℚ) (query : String) (query_codes : List String)
    (phonetic_boost : ℚ) (lookup : List ProductRecord) (cands : List (ℚ × Int))
    (k : Nat) (lc : List (ℚ × ProductRecord))
    (hlc : lookup_cands lookup cands = some lc) :
    hybrid_rerank jw query query_codes phonetic_boost lookup cands k
        = some (((sort_stable score_lt
              (lc.enum.map (fun p =>
                (final_score jw query query_codes phonetic_boost p.2.1 p.2.2, p.1, p.2.2)))).take
            k).map (fun t => Hit.mk t.2.2 t.1))
      ∧ (((sort_stable score_lt
              (lc.enum.map (fun p =>
                (final_score jw query query_codes phonetic_boost p.2.1 p.2.2, p.1, p.2.2)))).take
            k).map (fun t => Hit.mk t.2.2 t.1)).length ≤ k
      ∧ (sort_stable score_lt
            (lc.enum.map (fun p =>
              (final_score jw query query_codes phonetic_boost p.2.1 p.2.2, p.1,
                p.2.2)))).Pairwise score_pos_lex
      ∧ ∀ h ∈ ((sort_stable score_lt
              (lc.enum.map (fun p =>
                (final_score jw query query_codes phonetic_boost p.2.1 p.2.2, p.1, p.2.2)))).take
            k).map (fun t => Hit.mk t.2.2 t.1),
          ∃ (i : Nat) (dr : ℚ × ProductRecord), lc[i]? = some dr
            ∧ h = Hit.mk dr.2 (final_score jw query query_codes phonetic_boost dr.1 dr.2) := by
  refine ⟨?_, ?_, ?_, ?_⟩
  · simp only [hybrid_rerank, ranked_tagged, hlc, Option.map_some']
  · rw [List.length_map, List.length_take]
    exact Nat.min_le_left _ _
  · refine sort_stable_pairwise_slex _ ?_
    refine List.Pairwise.map _ ?_ (enumFrom_pairwise_fst_lt lc 0)
    intro a b hab
    exact hab
  · intro h hmem
    rcases List.mem_map.mp hmem with ⟨t, ht, rfl⟩
    have ht2 : t ∈ sort_stable score_lt
        (lc.enum.map (fun p =>
          (final_score jw query query_codes phonetic_boost p.2.1 p.2.2, p.1, p.2.2))) :=
      List.take_subset _ _ ht
    have ht3 := (sort_stable_perm score_lt _).mem_iff.mp ht2
    rcases List.mem_map.mp ht3 with ⟨p, hp, rfl⟩
    exact ⟨p.1, p.2, getElem?_of_mem_enum hp, rfl⟩

/-- Witness for C4: two live candidates and one empty ANN slot; the lower
scored candidate, which came second in ANN order, is returned for `k = 1`. -/
theorem hybrid_search_topk_stable_sorted_witness :
    hybrid_rerank jw_zero "q" [] 0 w4_lookup w4_cands 1 = some [Hit.mk w4_rb 1] :=
  ((hybrid_search_topk_stable_sorted jw_zero "q" [] 0 w4_lookup w4_cands 1
      [(2, w4_ra), (1, w4_rb)] rfl).1).trans (by rfl)

/-! ## Claim C10: queries leave the lookup unchanged -/

/-- C10: `hybrid_search` is read-only over the in-memory lookup: threading the
lookup through any number of queries returns it unchanged, and every returned
hit holds a copy of a record that is still present, unmodified, in the
lookup (the score is attached to the copy, never to the stored record). -/
theorem hybrid_search_read_only (jw : String → String → ℚ) (lookup : List ProductRecord)
    (queries : List QueryArgs) :
    queries.foldl (fun lkp q => (hybrid_search_stateful jw q lkp).2) lookup = lookup
    ∧ ∀ q out, (hybrid_search_stateful jw q lookup).1 = some out →
        ∀ h ∈ out, h.record ∈ lookup := by
  constructor
  · induction queries with
    | nil => rfl
    | cons q qs ih => exact ih
  · intro q out hout h hmem
    simp only [hybrid_search_stateful, hybrid_rerank, ranked_tagged] at hout
    cases hlc : lookup_cands lookup q.cands with
    | none => rw [hlc] at hout; simp at hout
    | some lc =>
      rw [hlc] at hout
      simp only [Option.map_some', Option.some.injEq] at hout
      subst hout
      rcases List.mem_map.mp hmem with ⟨t, ht, rfl⟩
      have ht2 := List.take_subset _ _ ht
      have ht3 := (sort_stable_perm score_lt _).mem_iff.mp ht2
      rcases List.mem_map.mp ht3 with ⟨p, hp, rfl⟩
      exact lookup_cands_mem hlc p.2 (snd_mem_of_mem_enumFrom hp)

/-- Witness for C10: one query over the two-record lookup. -/
theorem hybrid_search_read_only_witness :
    [w4_query].foldl (fun lkp q => (hybrid_search_stateful jw_zero q lkp).2) w4_lookup
        = w4_lookup
    ∧ (Hit.mk w4_rb 1).record ∈ w4_lookup :=
  ⟨(hybrid_search_read_only jw_zero w4_lookup [w4_query]).1,
   (hybrid_search_read_only jw_zero w4_lookup [w4_query]).2 w4_query [Hit.mk w4_rb 1] rfl
     (Hit.mk w4_rb 1) (List.mem_cons_self _ _)⟩

/-! ## Parallel embedder lemmas -/

/-- Processing completions never erases a stored vector. -/
theorem process_mono {B : Backend} {texts : List String} {order : List Nat} :
    ∀ {fd : Option Nat} {res res' : Nat → Option (List ℚ)},
      process_completions B texts fd res order = .ok res' →
      ∀ j v, res j = some v → ∃ w, res' j = some w := by
  induction order with
  | nil =>
    intro fd res res' h j v hj
    simp only [process_completions, Except.ok.injEq] at h
    subst h
    exact ⟨v, hj⟩
  | cons i rest ih =>
    intro fd res res' h j v hj
    cases fd with
    | none =>
      simp only [process_completions] at h
      cases hemb : embed_text B (texts.getD i "") with
      | error e => simp only [hemb] at h; exact absurd h (by simp)
      | ok w =>
        simp only [hemb] at h
        by_cases hji : j = i
        · exact ih h j w (by simp [hji])
        · exact ih h j v (by simp [hji, hj])
    | some d =>
      simp only [process_completions] at h
      cases hemb : embed_text B (texts.getD i "") with
      | error e => simp only [hemb] at h; exact absurd h (by simp)
      | ok w =>
        simp only [hemb] at h
        split at h
        · exact absurd h (by simp)
        · by_cases hji : j = i
          · exact ih h j w (by simp [hji])
          · exact ih h j v (by simp [hji, hj])

/-- Every index of the completion order ends up stored. -/
theorem process_covers {B : Backend} {texts : List String} {order : List Nat} :
    ∀ {fd : Option Nat} {res res' : Nat → Option (List ℚ)},
      process_completions B texts fd res order = .ok res' →
      ∀ j ∈ order, ∃ w, res' j = some w := by
  induction order with
  | nil => intro fd res res' h j hj; simp at hj
  | cons i rest ih =>
    intro fd res res' h j hj
    cases fd with
    | none =>
      simp only [process_completions] at h
      cases hemb : embed_text B (texts.getD i "") with
      | error e => simp only [hemb] at h; exact absurd h (by simp)
      | ok w =>
        simp only [hemb] at h
        rcases List.mem_cons.mp hj with rfl | hj2
        · exact process_mono h j w (by simp)
        · exact ih h j hj2
    | some d =>
      simp only [process_completions] at h
      cases hemb : embed_text B (texts.getD i "") with
      | error e => simp only [hemb] at h; exact absurd h (by simp)
      | ok w =>
        simp only [hemb] at h
        split at h
        · exact absurd h (by simp)
        · rcases List.mem_cons.mp hj with rfl | hj2
          · exact process_mono h j w (by simp)
          · exact ih h j hj2

/-- Every stored vector either was already stored or is the embedding of its
submission index. -/
theorem process_origin {B : Backend} {texts : List String} {order : List Nat} :
    ∀ {fd : Option Nat} {res res' : Nat → Option (List ℚ)},
      process_completions B texts fd res order = .ok res' →
      ∀ j v, res' j = some v →
        res j = some v ∨ embed_text B (texts.getD j "") = .ok v := by
  induction order with
  | nil =>
    intro fd res res' h j v hj
    simp only [process_completions, Except.ok.injEq] at h
    subst h
    exact Or.inl hj
  | cons i rest ih =>
    intro fd res res' h j v hj
    cases fd with
    | none =>
      simp only [process_completions] at h
      cases hemb : embed_text B (texts.getD i "") with
      | error e => simp only [hemb] at h; exact absurd h (by simp)
      | ok w =>
        simp only [hemb] at h
        rcases ih h j v hj with h3 | h3
        · by_cases hji : j = i
          · subst hji
            simp at h3
            subst h3
            exact Or.inr hemb
          · simp only [if_neg hji] at h3
            exact Or.inl h3
        · exact Or.inr h3
    | some d =>
      simp only [process_completions] at h
      cases hemb : embed_text B (texts.getD i "") with
      | error e => simp only [hemb] at h; exact absurd h (by simp)
      | ok w =>
        simp only [hemb] at h
        split at h
        · exact absurd h (by simp)
        · rcases ih h j v hj with h3 | h3
          · by_cases hji : j = i
            · subst hji
              simp at h3
              subst h3
              exact Or.inr hemb
            · simp only [if_neg hji] at h3
              exact Or.inl h3
          · exact Or.inr h3

/-- With the dimension fixed, every vector stored after processing has that
dimension. -/
theorem process_dims_some {B : Backend} {texts : List String} {order : List Nat} :
    ∀ {d : Nat} {res res' : Nat → Option (List ℚ)},
      process_completions B texts (some d) res order = .ok res' →
      (∀ j v, res j = some v → v.length = d) →
      ∀ j v, res' j = some v → v.length = d := by
  induction order with
  | nil =>
    intro d res res' h hres j v hj
    simp only [process_completions, Except.ok.injEq] at h
    subst h
    exact hres j v hj
  | cons i rest ih =>
    intro d res res' h hres j v hj
    simp only [process_completions] at h
    cases hemb : embed_text B (texts.getD i "") with
    | error e => simp only [hemb] at h; exact absurd h (by simp)
    | ok w =>
      simp only [hemb] at h
      split at h
      · exact absurd h (by simp)
      case isFalse hlen =>
        refine ih h ?_ j v hj
        intro j2 v2 hj2
        by_cases hji : j2 = i
        · rw [if_pos hji] at hj2
          cases hj2
          exact not_ne_iff.mp hlen
        · rw [if_neg hji] at hj2
          exact hres j2 v2 hj2

/-- Starting from an empty store and no fixed dimension, all stored vectors
share one dimension. -/
theorem process_dims_none {B : Backend} {texts : List String} {order : List Nat}
    {res res' : Nat → Option (List ℚ)}
    (h : process_completions B texts none res order = .ok res')
    (hres : ∀ j, res j = none) :
    ∃ d, ∀ j v, res' j = some v → v.length = d := by
  cases order with
  | nil =>
    simp only [process_completions, Except.ok.injEq] at h
    subst h
    exact ⟨0, fun j v hj => absurd hj (by simp [hres j])⟩
  | cons i rest =>
    simp only [process_completions] at h
    cases hemb : embed_text B (texts.getD i "") with
    | error e => simp only [hemb] at h; exact absurd h (by simp)
    | ok w =>
      simp only [hemb] at h
      refine ⟨w.length, process_dims_some h ?_⟩
      intro j v hj
      by_cases hji : j = i
      · rw [if_pos hji] at hj
        cases hj
        rfl
      · rw [if_neg hji] at hj
        exact absurd hj (by simp [hres j])

/-- Shape and content of a successful matrix assembly. -/
theorem assemble_rows_spec {res : Nat → Option (List ℚ)} :
    ∀ {idxs : List Nat} {m : List (List ℚ)},
      assemble_rows res idxs = some m →
      m.length = idxs.length ∧ ∀ (k x : Nat), idxs[k]? = some x → m[k]? = res x := by
  intro idxs
  induction idxs with
  | nil =>
    intro m h
    simp only [assemble_rows, Option.some.injEq] at h
    subst h
    exact ⟨rfl, by simp⟩
  | cons i is ih =>
    intro m h
    simp only [assemble_rows] at h
    cases hri : res i with
    | none => rw [hri] at h; simp at h
    | some v =>
      rw [hri] at h
      cases hrest : assemble_rows res is with
      | none => rw [hrest] at h; simp at h
      | some vs =>
        rw [hrest] at h
        simp only [Option.some.injEq] at h
        subst h
        rcases ih hrest with ⟨hlen, hpt⟩
        refine ⟨by simp [hlen], ?_⟩
        intro k x hk
        cases k with
        | zero =>
          simp only [List.getElem?_cons_zero, Option.some.injEq] at hk
          subst hk
          simpa using hri.symm
        | succ k2 =>
          simp only [List.getElem?_cons_succ] at hk ⊢
          exact hpt k2 x hk

/-- The full row-level specification of a successful `embed_texts_parallel`
run: the matrix has one row per text, row `i` is the (successful) embedding of
text `i`, and all rows share one dimension. -/
theorem parallel_rows_spec (B : Backend) (texts : List String) (mw : Nat)
    (order : List Nat) (m : List (List ℚ))
    (h : embed_texts_parallel B texts mw order = .ok m) :
    m.length = texts.length
    ∧ (∀ i, i < texts.length → m[i]? = (embed_text B (texts.getD i "")).toOption)
    ∧ (∃ d, ∀ v ∈ m, v.length = d) := by
  by_cases htexts : texts = []
  · subst htexts
    simp only [embed_texts_parallel] at h
    simp at h
    subst h
    exact ⟨rfl, by simp, ⟨0, by simp⟩⟩
  · simp only [embed_texts_parallel, if_neg htexts] at h
    cases hproc : process_completions B texts none (fun _ => none) order with
    | error e => simp only [hproc] at h; exact absurd h (by simp)
    | ok res =>
      simp only [hproc] at h
      cases hasm : assemble_rows res (List.range texts.length) with
      | none => simp only [hasm] at h; exact absurd h (by simp)
      | some m2 =>
        simp only [hasm, Except.ok.injEq] at h
        subst h
        rcases assemble_rows_spec hasm with ⟨hlen, hpt⟩
        have hlen2 : m2.length = texts.length := by simpa using hlen
        have hrow : ∀ i, i < texts.length → m2[i]? = res i := by
          intro i hi
          exact hpt i i (by simp [List.getElem?_range, hi])
        refine ⟨hlen2, ?_, ?_⟩
        · intro i hi
          have h1 := hrow i hi
          cases hresi : res i with
          | none =>
            rw [hresi] at h1
            have : i < m2.length := by omega
            exact absurd h1 (by simp [List.getElem?_eq_getElem this])
          | some v =>
            rw [hresi] at h1
            rcases process_origin hproc i v hresi with h2 | h2
            · simp at h2
            · rw [h1, h2]
              rfl
        · rcases process_dims_none hproc (fun _ => rfl) with ⟨d, hd⟩
          refine ⟨d, ?_⟩
          intro v hv
          rcases List.getElem_of_mem hv with ⟨k, hk, hkv⟩
          have hk2 : k < texts.length := by omega
          have h1 := hrow k hk2
          cases hresk : res k with
          | none =>
            rw [hresk] at h1
            exact absurd h1 (by simp [List.getElem?_eq_getElem hk])
          | some w =>
            rw [hresk] at h1
            have : v = w := by
              rw [List.getElem?_eq_getElem hk] at h1
              simp only [Option.some.injEq] at h1
              rw [← hkv, h1]
            subst this
            exact hd k v hresk

/-- With a fixed dimension, every row of a successful `embed_texts_go` has
that dimension. -/
theorem embed_texts_go_lengths {B : Backend} :
    ∀ {texts : List String} {d : Nat} {m : List (List ℚ)},
      embed_texts_go B (some d) texts = .ok m → ∀ v ∈ m, v.length = d := by
  intro texts
  induction texts with
  | nil =>
    intro d m h v hv
    simp only [embed_texts_go, Except.ok.injEq] at h
    subst h
    simp at hv
  | cons t ts ih =>
    intro d m h v hv
    simp only [embed_texts_go] at h
    cases hemb : embed_text B t with
    | error e => simp only [hemb] at h; exact absurd h (by simp)
    | ok w =>
      simp only [hemb] at h
      by_cases hlen : w.length ≠ d
      · rw [if_pos hlen] at h; exact absurd h (by simp)
      · rw [if_neg hlen] at h
        cases hrest : embed_texts_go B (some d) ts with
        | error e => simp only [hrest] at h; exact absurd h (by simp)
        | ok vs =>
          simp only [hrest, Except.ok.injEq] at h
          subst h
          rcases List.mem_cons.mp hv with rfl | hv2
          · exact not_ne_iff.mp hlen
          · exact ih hrest v hv2

/-- Sequential embedding succeeds and produces exactly the rows given
pointwise, when the dimension is already fixed and matches. -/
theorem embed_texts_go_of_pointwise {B : Backend} :
    ∀ {texts : List String} {m : List (List ℚ)} {d : Nat},
      (∀ i, i < texts.length → ∃ v, embed_text B (texts.getD i "") = .ok v ∧ m[i]? = some v) →
      (∀ v ∈ m, v.length = d) → m.length = texts.length →
      embed_texts_go B (some d) texts = .ok m := by
  intro texts
  induction texts with
  | nil =>
    intro m d _ _ hlen
    have : m = [] := List.length_eq_zero.mp hlen
    subst this
    rfl
  | cons t ts ih =>
    intro m d hpt hdim hlen
    cases m with
    | nil => simp at hlen
    | cons v vs =>
      rcases hpt 0 (by simp) with ⟨v2, hv2, hv2m⟩
      simp only [List.getElem?_cons_zero, Option.some.injEq] at hv2m
      rw [← hv2m] at hv2
      simp only [List.getD_cons_zero] at hv2
      simp only [embed_texts_go, hv2]
      have hvd : v.length = d := hdim v (List.mem_cons_self _ _)
      rw [if_neg (not_ne_iff.mpr hvd)]
      have hrest : embed_texts_go B (some d) ts = .ok vs := by
        refine ih ?_ ?_ ?_
        · intro i hi
          rcases hpt (i + 1) (by simpa using hi) with ⟨w, hw, hwm⟩
          exact ⟨w, by simpa using hw, by simpa using hwm⟩
        · intro w hw
          exact hdim w (List.mem_cons_of_mem _ hw)
        · simpa using hlen
      rw [hrest]

/-- Sequential embedding from the pointwise row description. -/
theorem embed_texts_of_pointwise {B : Backend} {texts : List String} {m : List (List ℚ)}
    (hpt : ∀ i, i < texts.length →
      ∃ v, embed_text B (texts.getD i "") = .ok v ∧ m[i]? = some v)
    (hdim : ∃ d, ∀ v ∈ m, v.length = d) (hlen : m.length = texts.length) :
    embed_texts B texts = .ok m := by
  cases texts with
  | nil =>
    have : m = [] := List.length_eq_zero.mp hlen
    subst this
    rfl
  | cons t ts =>
    cases m with
    | nil => simp at hlen
    | cons v vs =>
      rcases hpt 0 (by simp) with ⟨v2, hv2, hv2m⟩
      simp only [List.getElem?_cons_zero, Option.some.injEq] at hv2m
      rw [← hv2m] at hv2
      simp only [List.getD_cons_zero] at hv2
      simp only [embed_texts, embed_texts_go, hv2]
      rcases hdim with ⟨d, hd⟩
      have hvd : v.length = d := hd v (List.mem_cons_self _ _)
      have hrest : embed_texts_go B (some v.length) ts = .ok vs := by
        refine embed_texts_go_of_pointwise ?_ ?_ ?_
        · intro i hi
          rcases hpt (i + 1) (by simpa using hi) with ⟨w, hw, hwm⟩
          exact ⟨w, by simpa using hw, by simpa using hwm⟩
        · intro w hw
          rw [hvd]
          exact hd w (List.mem_cons_of_mem _ hw)
        · simpa using hlen
      rw [hrest]

/-! ## Claim C2: order preservation of the parallel embedder -/

/-- C2: whenever `embed_texts_parallel` returns a matrix, row `i` is the
embedding of `texts[i]` — for every completion order and worker count — and
the matrix coincides with what the sequential `embed_texts` returns on the
same input. -/
theorem parallel_embed_row_correspondence (B : Backend) (texts : List String)
    (max_workers : Nat) (order : List Nat) (m : List (List ℚ))
    (h : embed_texts_parallel B texts max_workers order = .ok m) :
    m.length = texts.length
    ∧ (∀ i, i < texts.length → m[i]? = (embed_text B (texts.getD i "")).toOption)
    ∧ embed_texts B texts = .ok m := by
  rcases parallel_rows_spec B texts max_workers order m h with ⟨hlen, hpt, hdim⟩
  refine ⟨hlen, hpt, embed_texts_of_pointwise ?_ hdim hlen⟩
  intro i hi
  have h1 := hpt i hi
  cases hemb : embed_text B (texts.getD i "") with
  | error e =>
    rw [hemb] at h1
    have : i < m.length := by omega
    exact absurd h1 (by simp [List.getElem?_eq_getElem this, Except.toOption])
  | ok v =>
    rw [hemb] at h1
    exact ⟨v, rfl, by simpa [Except.toOption] using h1⟩

/-- Witness for C2: three texts embedded under the completion order
`[2, 0, 1]` still yield rows in submission order, equal to the sequential
result. -/
theorem parallel_embed_row_correspondence_witness :
    ([[1], [2], [3]] : List (List ℚ)).length = (["a", "b", "c"] : List String).length
    ∧ ([[1], [2], [3]] : List (List ℚ))[1]? = (embed_text w2_backend "b").toOption
    ∧ embed_texts w2_backend ["a", "b", "c"] = .ok [[1], [2], [3]] :=
  ⟨(parallel_embed_row_correspondence w2_backend ["a", "b", "c"] 4 [2, 0, 1]
      [[1], [2], [3]] rfl).1,
   (parallel_embed_row_correspondence w2_backend ["a", "b", "c"] 4 [2, 0, 1]
      [[1], [2], [3]] rfl).2.1 1 (by decide),
   (parallel_embed_row_correspondence w2_backend ["a", "b", "c"] 4 [2, 0, 1]
      [[1], [2], [3]] rfl).2.2⟩

/-! ## Claim C6: where the embedding dimension is enforced -/

/-- C6 counterexample: two successive `embed_text` calls on the same process
succeed with vectors of different lengths (2 then 3).  No process-lifetime
dimension `D` is established or enforced by the single-text embedder, contrary
to the claim that a mismatch on a subsequent call raises an embedding error. -/
theorem embed_dimension_not_process_scoped :
    embed_text c6_backend "a" = .ok [0, 0]
    ∧ embed_text c6_backend "b" = .ok [0, 0, 0]
    ∧ ([0, 0] : List ℚ).length ≠ ([0, 0, 0] : List ℚ).length :=
  ⟨rfl, rfl, by decide⟩

/-- C6 (amended): dimension consistency is established and enforced only
within a single batched call.  In `embed_texts` a successful batch has all
rows of one length, a mismatch with the first vector raises the embedding
error, and the same consistency holds for a successful
`embed_texts_parallel`. -/
theorem embed_dimension_batch_scoped :
    (∀ (B : Backend) (texts : List String) (m : List (List ℚ)),
        embed_texts B texts = .ok m → ∀ u ∈ m, ∀ v ∈ m, u.length = v.length)
    ∧ (∀ (B : Backend) (t1 t2 : String) (v1 v2 : List ℚ),
        embed_text B t1 = .ok v1 → embed_text B t2 = .ok v2 → v1.length ≠ v2.length →
        embed_texts B [t1, t2] = .error .ollamaError)
    ∧ (∀ (B : Backend) (texts : List String) (mw : Nat) (order : List Nat)
        (m : List (List ℚ)),
        embed_texts_parallel B texts mw order = .ok m →
        ∀ u ∈ m, ∀ v ∈ m, u.length = v.length) := by
  refine ⟨?_, ?_, ?_⟩
  · intro B texts m h u hu v hv
    cases texts with
    | nil =>
      simp only [embed_texts, embed_texts_go, Except.ok.injEq] at h
      subst h
      simp at hu
    | cons t ts =>
      simp only [embed_texts, embed_texts_go] at h
      cases hemb : embed_text B t with
      | error e => simp only [hemb] at h; exact absurd h (by simp)
      | ok w =>
        simp only [hemb] at h
        cases hrest : embed_texts_go B (some w.length) ts with
        | error e => simp only [hrest] at h; exact absurd h (by simp)
        | ok vs =>
          simp only [hrest, Except.ok.injEq] at h
          subst h
          have hall : ∀ x ∈ w :: vs, x.length = w.length := by
            intro x hx
            rcases List.mem_cons.mp hx with rfl | hx2
            · rfl
            · exact embed_texts_go_lengths hrest x hx2
          rw [hall u hu, hall v hv]
  · intro B t1 t2 v1 v2 h1 h2 hne
    simp only [embed_texts, embed_texts_go, h1, h2]
    rw [if_pos (fun he => hne he.symm)]
  · intro B texts mw order m h u hu v hv
    rcases parallel_rows_spec B texts mw order m h with ⟨-, -, d, hd⟩
    rw [hd u hu, hd v hv]

/-- Witness for the amended C6: the mismatching backend makes the two-text
batch fail with the embedding error. -/
theorem embed_dimension_batch_scoped_witness :
    embed_texts c6_backend ["a", "b"] = .error .ollamaError :=
  embed_dimension_batch_scoped.2.1 c6_backend "a" "b" [0, 0] [0, 0, 0] rfl rfl (by decide)

/-! ## Claim C3: index build parity -/

/-- C3: a successful `build_index` run yields a lookup with exactly one record
per ingested (normalized) row, meta with `num_items` equal to that count and
`embedding_dim` equal to the vector index's row dimension (all rows sharing
it), a vector index with exactly that many rows, and, position by position,
the `i`-th lookup record and the `i`-th vector both derived from the `i`-th
normalized row. -/
theorem build_index_parity (B : Backend) (phon : String → Option String × Option String)
    (rows : List CatalogueRow) (max_rows : Option Nat) (workers : Nat) (order : List Nat)
    (art : Artifacts) (h : build_index B phon rows max_rows workers order = .ok art) :
    art.lookup.length = (prepare_dataframe phon rows max_rows).length
    ∧ art.meta.num_items = (prepare_dataframe phon rows max_rows).length
    ∧ art.index.length = (prepare_dataframe phon rows max_rows).length
    ∧ art.meta.embedding_dim = (art.index.headD []).length
    ∧ (∀ v ∈ art.index, v.length = art.meta.embedding_dim)
    ∧ ∀ i, i < (prepare_dataframe phon rows max_rows).length →
        art.lookup[i]? = ((prepare_dataframe phon rows max_rows)[i]?).map build_lookup_record
        ∧ art.index[i]?
            = (((prepare_dataframe phon rows max_rows)[i]?).map (·.search_text)).bind
              (fun t => (embed_text B t).toOption) := by
  simp only [build_index] at h
  cases hpar : embed_texts_parallel B ((prepare_dataframe phon rows max_rows).map
      (·.search_text)) workers order with
  | error e => simp only [hpar] at h; exact absurd h (by simp)
  | ok embeddings =>
    simp only [hpar] at h
    by_cases hsh : embeddings.length
        ≠ ((prepare_dataframe phon rows max_rows).map (·.search_text)).length
    · rw [if_pos hsh] at h; exact absurd h (by simp)
    · rw [if_neg hsh] at h
      simp only [Except.ok.injEq] at h
      subst h
      have hlen : embeddings.length = (prepare_dataframe phon rows max_rows).length := by
        have := not_ne_iff.mp hsh
        simpa using this
      rcases parallel_rows_spec B _ workers order embeddings hpar with ⟨-, hpt, d, hd⟩
      refine ⟨by simp [build_lookup], hlen, hlen, rfl, ?_, ?_⟩
      · intro v hv
        cases hE : embeddings with
        | nil => rw [hE] at hv; simp at hv
        | cons a as =>
          have hada : a ∈ embeddings := by rw [hE]; exact List.mem_cons_self _ _
          have hva : v.length = d := hd v hv
          have haa : a.length = d := hd a hada
          simp only [hE, List.headD_cons]
          rw [hva, haa]
      · intro i hi
        constructor
        · simp [build_lookup]
        · have hi2 : i < ((prepare_dataframe phon rows max_rows).map
              (·.search_text)).length := by simpa using hi
          have h1 := hpt i hi2
          have hget : ((prepare_dataframe phon rows max_rows).map
              (·.search_text)).getD i ""
              = ((prepare_dataframe phon rows max_rows).map (·.search_text))[i] := by
            simp [List.getD_eq_getElem?_getD, List.getElem?_eq_getElem hi2]
          rw [hget] at h1
          rw [h1]
          have h2 : ((prepare_dataframe phon rows max_rows).map (·.search_text))[i]
              = ((prepare_dataframe phon rows max_rows)[i]).search_text := by
            simp
          rw [h2]
          simp [List.getElem?_eq_getElem hi]

/-- Witness for C3: a one-row catalogue built with a constant backend. -/
theorem build_index_parity_witness :
    w3_art.lookup.length = w3_df.length
    ∧ w3_art.meta.num_items = w3_df.length
    ∧ w3_art.index.length = w3_df.length :=
  ⟨(build_index_parity w3_backend w3_phon w3_rows none 4 [0] w3_art rfl).1,
   (build_index_parity w3_backend w3_phon w3_rows none 4 [0] w3_art rfl).2.1,
   (build_index_parity w3_backend w3_phon w3_rows none 4 [0] w3_art rfl).2.2.1⟩

/-! ## Claim C5: facet aggregates ignore the active filters -/

/-- Enhancement never changes the label of a hit. -/
theorem enhance_label_eq (l : List AppHit) (mapping : List (String × List SKU)) :
    (enhance_results l mapping).map (·.label) = l.map (·.label) := by
  induction l with
  | nil => rfl
  | cons r rs ih =>
    simp only [enhance_results, List.map_cons] at ih ⊢
    rw [ih]
    cases hm : mapping.lookup r.label with
    | none => simp [hm]
    | some skus =>
      cases skus with
      | nil => simp [hm]
      | cons sku rest => simp [hm]

/-- C5: for a fixed candidate set and active-facets flag the facet aggregates
of `get_facets_async` are identical for every `facet_filters` argument (the
argument is never read), and applying facet filters in
`search_with_facets` only selects which hits remain: the labels of the
filtered results form a sublist of the unfiltered ones. -/
theorem facets_independent_of_filters :
    (∀ (db : ProductDB) (product_names : List String)
        (f1 f2 : List (String × List String)) (oa : Bool),
        get_facets_async db product_names f1 oa = get_facets_async db product_names f2 oa)
    ∧ ∀ (db : ProductDB) (results : List AppHit) (filters : List (String × List String)),
        ((apply_facet_filtering db results filters).map (·.label)).Sublist
          (results.map (·.label)) := by
  constructor
  · intro db pn f1 f2 oa
    rfl
  · intro db results filters
    simp only [apply_facet_filtering]
    split_ifs
    · rw [enhance_label_eq]
      exact (List.filter_sublist results).map _
    · exact List.Sublist.refl _
    · exact List.Sublist.refl _
    · exact List.Sublist.refl _

/-! ## Claim C7: which SKU the enhancement uses -/

/-- C7 counterexample: the label `"soap"` resolves to two SKUs; the filter
keeps only the second (`brand_sku_id = 2`), so the hit survives, but the
enhanced fields come from the FIRST SKU (`brand_sku_id = 1`), not from the
first SKU satisfying the filters. -/
theorem enhance_first_matching_sku_refuted :
    (apply_facet_filtering c7_db [c7_hit] c7_filters).map (·.brand_sku_id) = [some 1]
    ∧ first_matching_sku (c7_db.get_brand_sku_by_product_names ["soap"])
        (c7_db.get_brand_skus_matching_facets c7_filters [1, 2]) "soap" = some c7_sku2
    ∧ c7_sku2.brand_sku_id = 2
    ∧ (1 : Nat) ≠ 2 :=
  ⟨rfl, rfl, rfl, by decide⟩

/-- C7 (amended): `_enhance_results_with_brand_info` sets the four brand
fields of each surviving hit from the first SKUFact of its label's list,
regardless of the facet filters. -/
theorem enhance_uses_first_sku (results : List AppHit) (mapping : List (String × List SKU))
    (i : Nat) (r : AppHit) (sku : SKU) (rest : List SKU)
    (hr : results[i]? = some r) (hm : mapping.lookup r.label = some (sku :: rest)) :
    (enhance_results results mapping)[i]?
      = some { r with
          brand_sku_id := some sku.brand_sku_id
          brand_sku_label := some sku.brand_sku_label
          brand_name := some sku.brand_name
          brand_id := some sku.brand_id } := by
  simp only [enhance_results, List.getElem?_map, hr, Option.map_some']
  simp [hm]

/-- Witness for the amended C7 at the two-SKU mapping. -/
theorem enhance_uses_first_sku_witness :
    (enhance_results [c7_hit] [("soap", [c7_sku1, c7_sku2])])[0]?
      = some { c7_hit with
          brand_sku_id := some c7_sku1.brand_sku_id
          brand_sku_label := some c7_sku1.brand_sku_label
          brand_name := some c7_sku1.brand_name
          brand_id := some c7_sku1.brand_id } :=
  enhance_uses_first_sku [c7_hit] [("soap", [c7_sku1, c7_sku2])] 0 c7_hit c7_sku1 [c7_sku2]
    rfl rfl

/-! ## Claim C8: the empty-query short circuit -/

/-- C8 counterexample: a request with an empty `q` and the non-numeric
`k = "abc"` does not produce the empty-result JSON; `int(k)` raises before the
empty-query check is reached. -/
theorem empty_query_short_circuit_refuted :
    search_route dummy_engine "" (some "abc") none [] = .error ()
    ∧ search_route dummy_engine "" (some "abc") none [] ≠ .ok empty_query_response :=
  ⟨rfl, fun hc => Except.noConfusion hc⟩

/-- C8 (amended): for every request whose `q` trims to empty the search system
is never invoked (the response does not depend on it at all), and if
additionally the `k` parameter is absent or parses as an integer, the response
is exactly the empty result with error `"No search query provided"`. -/
theorem empty_query_short_circuit
    (engine1 engine2 : String → Int → List (String × List String) → Bool → SearchResponse)
    (qArg : String) (kArg : Option String) (activeArg : Option String)
    (facetArgs : List (String × List String)) (hq : py_strip qArg = "") :
    search_route engine1 qArg kArg activeArg facetArgs
        = search_route engine2 qArg kArg activeArg facetArgs
    ∧ ∀ k, parse_k kArg = some k →
        search_route engine1 qArg kArg activeArg facetArgs = .ok empty_query_response := by
  simp only [search_route, hq]
  cases hk : parse_k kArg with
  | none =>
    exact ⟨rfl, fun k hkk => absurd hkk (by simp)⟩
  | some k0 =>
    refine ⟨by simp, ?_⟩
    intro k hkk
    simp

/-- Witness for the amended C8: a whitespace-only query with no `k` parameter
yields the empty result under two different engines. -/
theorem empty_query_short_circuit_witness :
    py_strip "  " = ""
    ∧ search_route dummy_engine "  " none none [] = search_route other_engine "  " none none []
    ∧ search_route dummy_engine "  " none none [] = .ok empty_query_response :=
  ⟨rfl,
   (empty_query_short_circuit dummy_engine other_engine "  " none none [] rfl).1,
   (empty_query_short_circuit dummy_engine other_engine "  " none none [] rfl).2 50 rfl⟩

/-! ## Claim C9: non-numeric `k` is not caught -/

/-- C9: at the failing input `q = "soap"`, `k = "abc"`, the route raises an
uncaught `ValueError` from `int(...)` (modelled `.error ()`) instead of
returning an empty result with an `error` field, whatever the search system
does. -/
theorem nonnumeric_k_uncaught :
    search_route dummy_engine "soap" (some "abc") none [] = .error ()
    ∧ search_route other_engine "soap" (some "abc") none [] = .error () :=
  ⟨rfl, rfl⟩

end BadhoSearch
